import Mathlib

/-!
Verification development for the hex-lattice-4x4 sweep-and-analysis pipeline.

The Python sources are shallowly embedded:
  * `src/post_process_results.py`: `identifyBandgaps`, `checkPlasticity`,
    `checkBuckling` (floats become rationals; the division that Python can
    fail on becomes `Except`).
  * `src/generate_report.py`: `findOptimalConfiguration` (per-configuration
    scoring and the final stable descending sort; Python dict iteration
    order becomes the order of an association list).
  * `src/parametric_sweep.py`: `runSweep` (the per-configuration
    try/except/finally lifecycle, the bounded poll loop, the in-memory
    results store and the single JSON flush, with the external Abaqus job
    modelled as an oracle `ConfigBehavior`).
-/

/- ============================================================
   MetricsEngine: src/post_process_results.py
   ============================================================ -/

/-- A bandgap record as built by `identifyBandgaps` in
src/post_process_results.py (dict keys onset, end, width, center). -/
structure Bandgap where
  onset : ℚ
  end_ : ℚ
  width : ℚ
  center : ℚ
deriving DecidableEq

/-- The dictionary appended for one run of suppressed samples:
width = end - onset, center = (onset + end) / 2. -/
def mkBandgap (bandgapStart bandgapEnd : ℚ) : Bandgap :=
  { onset := bandgapStart
    end_ := bandgapEnd
    width := bandgapEnd - bandgapStart
    center := (bandgapStart + bandgapEnd) / 2 }

/-- np.max over a list, as used on the (nonempty) strain-energy array. -/
def maxList : List ℚ → ℚ
  | [] => 0
  | x :: xs => xs.foldl max x

/-- The scan loop of `identifyBandgaps`: walks the (frequency, below_threshold)
samples in order, carrying the open-run start (`in_bandgap`/`bandgap_start`)
and the most recent frequency; a run still open after the loop is closed at
the last frequency of the array (`freq_arr[-1]`). -/
def bgScanAux : List (ℚ × Bool) → Option ℚ → ℚ → List Bandgap
  | [], none, _ => []
  | [], some s, lastFreq => [mkBandgap s lastFreq]
  | (f, b) :: rest, none, _ =>
      if b then bgScanAux rest (some f) f else bgScanAux rest none f
  | (f, b) :: rest, some s, _ =>
      if b then bgScanAux rest (some s) f
      else mkBandgap s f :: bgScanAux rest none f

/-- `identifyBandgaps(frequencies, strainEnergy, threshold_factor)` from
src/post_process_results.py lines 163-230: empty input or zero maximum
strain energy gives no bandgaps; otherwise each sample is suppressed when
its max-normalized strain energy is strictly below the threshold, and
maximal runs of suppressed samples become bandgaps. -/
def identifyBandgaps (frequencies strainEnergy : List ℚ)
    (thresholdFactor : ℚ) : List Bandgap :=
  if frequencies = [] ∨ strainEnergy = [] then []
  else
    let seMax := maxList strainEnergy
    if seMax = 0 then []
    else
      let below := strainEnergy.map (fun e => decide (e / seMax < thresholdFactor))
      bgScanAux (frequencies.zip below) none 0

/-- The dictionary `checkPlasticity` returns; the None branch (maxStress
absent) carries only the two sentinel fields, so all fields are optional. -/
structure PlasticityResult where
  hasPlasticity : Option Bool
  safetyFactor : Option ℚ
  maxStress_MPa : Option ℚ
  yieldStress_MPa : Option ℚ
deriving DecidableEq

/-- `checkPlasticity(maxStress, yieldStress=276e3)` from
src/post_process_results.py lines 233-255. Python raises ZeroDivisionError
on `yieldStress / maxStress` when maxStress is 0 (present, not None), so the
embedding is fallible. -/
def checkPlasticity (maxStress : Option ℚ) (yieldStress : ℚ) :
    Except String PlasticityResult :=
  match maxStress with
  | none => Except.ok ⟨none, none, none, none⟩
  | some ms =>
      if ms = 0 then Except.error "float division by zero"
      else
        Except.ok
          ⟨some (decide (yieldStress < ms)), some (yieldStress / ms),
            some (ms / 1000), some (yieldStress / 1000)⟩

/-- The dictionary `checkBuckling` returns; the empty-list branch carries
only willBuckle and criticalLoad (both None), so all fields are optional. -/
structure BucklingResult where
  willBuckle : Option Bool
  criticalLoad_N : Option ℚ
  criticalLoad_kN : Option ℚ
  loadFactor : Option ℚ
  safetyMargin : Option ℚ
deriving DecidableEq

/-- `checkBuckling(loadFactors, appliedLoad=10000.0)` from
src/post_process_results.py lines 258-282: everything is computed from
`loadFactors[0]`; later elements are never read. -/
def checkBuckling (loadFactors : List ℚ) (appliedLoad : ℚ) : BucklingResult :=
  match loadFactors with
  | [] => ⟨none, none, none, none, none⟩
  | firstLF :: _ =>
      ⟨some (decide (firstLF < 1)), some (firstLF * appliedLoad),
        some (firstLF * appliedLoad / 1000), some firstLF,
        some (if 1 < firstLF then (firstLF - 1) * 100 else 0)⟩

/- ============================================================
   Ranker: src/generate_report.py, findOptimalConfiguration
   ============================================================ -/

/-- One configuration entry of the loaded results mapping, restricted to the
keys `findOptimalConfiguration` reads: optional plasticityCheck and
bucklingCheck sub-dictionaries and the bandgap list (a missing bandgaps key
and an empty list take the same branch, so both are the empty list). -/
structure ResultData where
  beta : Option ℚ
  theta : Option ℚ
  plasticityCheck : Option PlasticityResult
  bucklingCheck : Option BucklingResult
  bandgaps : List Bandgap
deriving DecidableEq

/-- The plasticity block of the scoring loop (lines 387-399): a truthy
hasPlasticity costs 100 and records the issue; otherwise a safety factor
strictly above 1 earns safetyFactor * 10 (Python truthiness of the float is
subsumed by the comparison with 1). -/
def plasticityTerm : Option PlasticityResult → ℚ × List String
  | none => (0, [])
  | some pc =>
      if pc.hasPlasticity = some true then (-100, ["Plasticity detected"])
      else
        match pc.safetyFactor with
        | some sf => if 1 < sf then (sf * 10, []) else (0, [])
        | none => (0, [])

/-- The buckling block of the scoring loop (lines 401-413): a truthy
willBuckle costs 100 and records the issue; otherwise a load factor strictly
above 1 earns (loadFactor - 1) * 50. -/
def bucklingTerm : Option BucklingResult → ℚ × List String
  | none => (0, [])
  | some bc =>
      if bc.willBuckle = some true then (-100, ["Buckling instability"])
      else
        match bc.loadFactor with
        | some lf => if 1 < lf then ((lf - 1) * 50, []) else (0, [])
        | none => (0, [])

/-- The bandgap block of the scoring loop (lines 415-431): no bandgap costs
50 and records the issue; otherwise a truthy (nonzero) onset of the first
bandgap costs onset / 10 and a truthy (nonzero) width earns width / 5. -/
def bandgapTerm : List Bandgap → ℚ × List String
  | [] => (-50, ["No bandgap detected"])
  | bg :: _ =>
      ((if bg.onset = 0 then 0 else -(bg.onset / 10)) +
        (if bg.width = 0 then 0 else bg.width / 5), [])

/-- The candidate dictionary appended for one configuration
(lines 433-445). -/
structure Candidate where
  config : String
  beta : Option ℚ
  theta : Option ℚ
  score : ℚ
  issues : List String
  hasPlasticity : Option Bool
  willBuckle : Option Bool
  safetyFactor : Option ℚ
  bucklingLF : Option ℚ
  bandgapOnset : Option ℚ
  bandgapWidth : Option ℚ
deriving DecidableEq

/-- Body of the scoring loop for one (configKey, data) pair: score starts at
0, the three blocks add their contributions and issues in order; the local
hasPlasticity/willBuckle variables start as Python False and keep the stored
value (possibly None) when the check dictionary is present. -/
def mkCandidate (key : String) (d : ResultData) : Candidate :=
  let p := plasticityTerm d.plasticityCheck
  let b := bucklingTerm d.bucklingCheck
  let g := bandgapTerm d.bandgaps
  { config := key
    beta := d.beta
    theta := d.theta
    score := p.1 + b.1 + g.1
    issues := p.2 ++ b.2 ++ g.2
    hasPlasticity :=
      match d.plasticityCheck with
      | none => some false
      | some pc => pc.hasPlasticity
    willBuckle :=
      match d.bucklingCheck with
      | none => some false
      | some bc => bc.willBuckle
    safetyFactor :=
      match d.plasticityCheck with
      | none => none
      | some pc => pc.safetyFactor
    bucklingLF :=
      match d.bucklingCheck with
      | none => none
      | some bc => bc.loadFactor
    bandgapOnset :=
      match d.bandgaps with
      | [] => none
      | bg :: _ => some bg.onset
    bandgapWidth :=
      match d.bandgaps with
      | [] => none
      | bg :: _ => some bg.width }

/-- The candidates list in the iteration order of the results mapping. -/
def candidatesOf (results : List (String × ResultData)) : List Candidate :=
  results.map (fun p => mkCandidate p.1 p.2)

/-- Insertion step of a stable descending sort by score: the new element
passes every element with a strictly larger score and stops in front of the
first element whose score is not larger, so earlier input elements stay in
front of equal-score later ones - the semantics of Python
`list.sort(key=score, reverse=True)`. -/
def insertScoreDesc (c : Candidate) : List Candidate → List Candidate
  | [] => [c]
  | y :: ys => if c.score < y.score then y :: insertScoreDesc c ys else c :: y :: ys

/-- Stable descending sort by score, processing input left to right. -/
def sortScoreDesc : List Candidate → List Candidate
  | [] => []
  | x :: xs => insertScoreDesc x (sortScoreDesc xs)

/-- `findOptimalConfiguration(results)` from src/generate_report.py lines
370-450: build one candidate per configuration, then
`candidates.sort(key=lambda x: x[score], reverse=True)`. -/
def findOptimalConfiguration (results : List (String × ResultData)) :
    List Candidate :=
  sortScoreDesc (candidatesOf results)

example :
    identifyBandgaps [1, 2, 3] [10, 0, 10] (1 / 10) = [⟨2, 3, 1, 5 / 2⟩] := by
  norm_num [identifyBandgaps, maxList, bgScanAux, mkBandgap, List.cons_ne_nil]

example : identifyBandgaps [1, 2] [10, 0] (1 / 10) = [⟨2, 2, 0, 2⟩] := by
  norm_num [identifyBandgaps, maxList, bgScanAux, mkBandgap, List.cons_ne_nil]

example : (checkBuckling [4 / 5, 21 / 10] 10000).criticalLoad_N = some 8000 := by
  norm_num [checkBuckling]

example :
    checkPlasticity (some 300000) 276000 =
      Except.ok ⟨some true, some (23 / 25), some 300, some 276⟩ := by
  norm_num [checkPlasticity]

/- ============================================================
   SweepDriver: src/parametric_sweep.py, runSweep
   ============================================================ -/

/-- The job status values the poll loop inspects (`mdb.jobs[...].status`).
The source compares against the COMPLETED constant and against the strings
ABORTED and FAILED; the embedding takes those comparisons at face value as
comparisons with the corresponding terminal statuses. -/
inductive JobStatus where
  | submitted
  | running
  | completed
  | aborted
  | failed
deriving DecidableEq

/-- The break condition of the poll loop, line 372 of
src/parametric_sweep.py. -/
def isTerminal : JobStatus → Bool
  | JobStatus.completed => true
  | JobStatus.aborted => true
  | JobStatus.failed => true
  | _ => false

/-- maxWait = 300 seconds (5 minutes max per job), line 365. -/
def maxWaitSeconds : ℕ := 300

/-- time.sleep(2) per iteration and waitTime += 2, lines 368 and 374. -/
def pollIntervalSeconds : ℕ := 2

/-- The poll loop `while waitTime < maxWait`: the n-th status query is
`status n`; the loop stops at the first terminal status or when the budget
(fuel = maxWait / interval iterations) runs out, and returns the index of
the final status query made after the loop (line 377). -/
def pollExitIdx (status : ℕ → JobStatus) : ℕ → ℕ → ℕ
  | q, 0 => q
  | q, fuel + 1 => if isTerminal (status q) then q else pollExitIdx status (q + 1) fuel

/-- The job status observed by the re-query after the poll loop
(`jobStatus = mdb.jobs[jobName].status`, line 377). -/
def pollFinalStatus (status : ℕ → JobStatus) : JobStatus :=
  status (pollExitIdx status 0 (maxWaitSeconds / pollIntervalSeconds))

/-- The dictionary `extractResults` builds for a completed job (lines
254-298), restricted to representative fields. -/
structure RawResultSet where
  maxStress : Option ℚ
  maxDisplacement : Option ℚ
  bucklingLoadFactors : List ℚ
  naturalFrequencies : List ℚ
deriving DecidableEq

/-- An entry of the `allResults` store: either the extracted result record
(line 390) or the error record written by the except branch (line 407). -/
inductive SweepRecord where
  | results (r : RawResultSet)
  | errorRec (msg : String)
deriving DecidableEq

/-- The external behavior of one configuration, as seen through the
collaborator boundary: the model-build/save/submit phase and the result
extraction either succeed or raise (with the str(e) message), the job status
is a function of the poll-query index, and cleanup may itself raise
(`cleanupRaises`) - the finally block swallows that, so the flag has no
observable effect. -/
structure ConfigBehavior where
  build : Except String Unit
  submit : Except String Unit
  statusAt : ℕ → JobStatus
  extract : Except String RawResultSet
  cleanupRaises : Bool

/-- The mutable state of runSweep: the in-memory `allResults` store (in
insertion order), the list of snapshots written to the results JSON file
(one entry per json.dump), and the configurations whose cleanup block
ran. -/
structure SweepState where
  store : List (String × SweepRecord)
  flushes : List (List (String × SweepRecord))
  cleanups : List String

def initSweepState : SweepState := ⟨[], [], []⟩

/-- One iteration of the sweep loop (lines 322-423): the try block builds,
saves and submits the model, polls, and on COMPLETED extracts and stores the
results under the configuration key; any exception is caught and an error
record is stored under the key; a non-COMPLETED final status stores nothing;
the finally block always runs the cleanup, swallowing its own failures. -/
def processConfig (env : String → ConfigBehavior) (st : SweepState)
    (key : String) : SweepState :=
  let b := env key
  let afterTry :=
    match b.build with
    | Except.error e => { st with store := st.store ++ [(key, SweepRecord.errorRec e)] }
    | Except.ok _ =>
        match b.submit with
        | Except.error e =>
            { st with store := st.store ++ [(key, SweepRecord.errorRec e)] }
        | Except.ok _ =>
            if pollFinalStatus b.statusAt = JobStatus.completed then
              match b.extract with
              | Except.error e =>
                  { st with store := st.store ++ [(key, SweepRecord.errorRec e)] }
              | Except.ok r =>
                  { st with store := st.store ++ [(key, SweepRecord.results r)] }
            else st
  { afterTry with cleanups := afterTry.cleanups ++ [key] }

/-- The store entries one configuration contributes: an error record if some
phase raises, the extracted results if the job completes, nothing if the
final status is not COMPLETED (characterization of `processConfig`, proved
below). -/
def recordsOf (env : String → ConfigBehavior) (key : String) :
    List (String × SweepRecord) :=
  match (env key).build with
  | Except.error e => [(key, SweepRecord.errorRec e)]
  | Except.ok _ =>
      match (env key).submit with
      | Except.error e => [(key, SweepRecord.errorRec e)]
      | Except.ok _ =>
          if pollFinalStatus (env key).statusAt = JobStatus.completed then
            match (env key).extract with
            | Except.error e => [(key, SweepRecord.errorRec e)]
            | Except.ok r => [(key, SweepRecord.results r)]
          else []

/-- The first exception a configuration raises inside the try block, if
any (the message the except branch records). -/
def configError (b : ConfigBehavior) : Option String :=
  match b.build with
  | Except.error e => some e
  | Except.ok _ =>
      match b.submit with
      | Except.error e => some e
      | Except.ok _ =>
          if pollFinalStatus b.statusAt = JobStatus.completed then
            match b.extract with
            | Except.error e => some e
            | Except.ok _ => none
          else none

/-- `runSweep()` (lines 303-456): iterate over the enumerated configuration
keys in order, then - after the loop - serialize `allResults` to the results
JSON file once (json.dump at line 440). -/
def runSweep (env : String → ConfigBehavior) (keys : List String) : SweepState :=
  let st := keys.foldl (processConfig env) initSweepState
  { st with flushes := st.flushes ++ [st.store] }

/-- A job that completes on the first status query. -/
def completingJob (r : RawResultSet) : ConfigBehavior :=
  ⟨Except.ok (), Except.ok (), fun _ => JobStatus.completed, Except.ok r, false⟩

/-- A job whose status never becomes terminal (permanently Running). -/
def neverTerminalJob (r : RawResultSet) : ConfigBehavior :=
  ⟨Except.ok (), Except.ok (), fun _ => JobStatus.running, Except.ok r, false⟩

/-- A sample extracted result record used by concrete inputs. -/
def sampleRaw : RawResultSet := ⟨some 200000, some 1, [3 / 2], [120]⟩

example :
    pollFinalStatus (fun _ => JobStatus.running) = JobStatus.running := by rfl

example :
    (runSweep (fun _ => completingJob sampleRaw) ["a", "b"]).store =
      [("a", SweepRecord.results sampleRaw), ("b", SweepRecord.results sampleRaw)] := by
  rfl

/- ============================================================
   Helper lemmas about the sweep driver
   ============================================================ -/

lemma processConfig_store (env : String → ConfigBehavior) (st : SweepState)
    (key : String) :
    (processConfig env st key).store = st.store ++ recordsOf env key := by
  rcases hb : (env key).build with e | u
  · simp [processConfig, recordsOf, hb]
  · rcases hs : (env key).submit with e | u
    · simp [processConfig, recordsOf, hb, hs]
    · by_cases hp : pollFinalStatus (env key).statusAt = JobStatus.completed
      · rcases hx : (env key).extract with e | r <;>
          simp [processConfig, recordsOf, hb, hs, hp, hx]
      · simp [processConfig, recordsOf, hb, hs, hp]

lemma processConfig_flushes (env : String → ConfigBehavior) (st : SweepState)
    (key : String) : (processConfig env st key).flushes = st.flushes := by
  rcases hb : (env key).build with e | u
  · simp [processConfig, hb]
  · rcases hs : (env key).submit with e | u
    · simp [processConfig, hb, hs]
    · by_cases hp : pollFinalStatus (env key).statusAt = JobStatus.completed
      · rcases hx : (env key).extract with e | r <;> simp [processConfig, hb, hs, hp, hx]
      · simp [processConfig, hb, hs, hp]

lemma processConfig_cleanups (env : String → ConfigBehavior) (st : SweepState)
    (key : String) :
    (processConfig env st key).cleanups = st.cleanups ++ [key] := by
  rcases hb : (env key).build with e | u
  · simp [processConfig, hb]
  · rcases hs : (env key).submit with e | u
    · simp [processConfig, hb, hs]
    · by_cases hp : pollFinalStatus (env key).statusAt = JobStatus.completed
      · rcases hx : (env key).extract with e | r <;> simp [processConfig, hb, hs, hp, hx]
      · simp [processConfig, hb, hs, hp]

lemma sweepFold_store (env : String → ConfigBehavior) (keys : List String) :
    ∀ st : SweepState,
      (keys.foldl (processConfig env) st).store =
        st.store ++ (keys.map (recordsOf env)).flatten := by
  induction keys with
  | nil => intro st; simp
  | cons k rest ih =>
      intro st
      simp only [List.foldl_cons, List.map_cons, List.flatten_cons]
      rw [ih, processConfig_store, List.append_assoc]

lemma sweepFold_flushes (env : String → ConfigBehavior) (keys : List String) :
    ∀ st : SweepState,
      (keys.foldl (processConfig env) st).flushes = st.flushes := by
  induction keys with
  | nil => intro st; simp
  | cons k rest ih =>
      intro st
      simp only [List.foldl_cons]
      rw [ih, processConfig_flushes]

lemma sweepFold_cleanups (env : String → ConfigBehavior) (keys : List String) :
    ∀ st : SweepState,
      (keys.foldl (processConfig env) st).cleanups = st.cleanups ++ keys := by
  induction keys with
  | nil => intro st; simp
  | cons k rest ih =>
      intro st
      simp only [List.foldl_cons]
      rw [ih, processConfig_cleanups, List.append_assoc]
      rfl

lemma runSweep_store (env : String → ConfigBehavior) (keys : List String) :
    (runSweep env keys).store = (keys.map (recordsOf env)).flatten := by
  simp only [runSweep]
  rw [sweepFold_store]
  rfl

lemma runSweep_flushes (env : String → ConfigBehavior) (keys : List String) :
    (runSweep env keys).flushes = [(runSweep env keys).store] := by
  simp only [runSweep]
  rw [sweepFold_flushes]
  rfl

lemma runSweep_cleanups (env : String → ConfigBehavior) (keys : List String) :
    (runSweep env keys).cleanups = keys := by
  simp only [runSweep]
  rw [sweepFold_cleanups]
  rfl

/- ============================================================
   Helper lemmas about the ranking sort
   ============================================================ -/

lemma mem_insertScoreDesc (c z : Candidate) :
    ∀ l : List Candidate, z ∈ insertScoreDesc c l ↔ z = c ∨ z ∈ l := by
  intro l
  induction l with
  | nil => simp [insertScoreDesc]
  | cons y ys ih =>
      by_cases h : c.score < y.score
      · simp only [insertScoreDesc, if_pos h, List.mem_cons, ih]
        tauto
      · simp only [insertScoreDesc, if_neg h, List.mem_cons]

lemma insertScoreDesc_perm (c : Candidate) :
    ∀ l : List Candidate, (insertScoreDesc c l).Perm (c :: l) := by
  intro l
  induction l with
  | nil => simp [insertScoreDesc]
  | cons y ys ih =>
      by_cases h : c.score < y.score
      · rw [insertScoreDesc, if_pos h]
        exact (ih.cons y).trans (List.Perm.swap c y ys)
      · rw [insertScoreDesc, if_neg h]

lemma sortScoreDesc_perm :
    ∀ l : List Candidate, (sortScoreDesc l).Perm l := by
  intro l
  induction l with
  | nil => simp [sortScoreDesc]
  | cons x xs ih =>
      rw [sortScoreDesc]
      exact (insertScoreDesc_perm x (sortScoreDesc xs)).trans (ih.cons x)

lemma pairwise_insertScoreDesc (c : Candidate) :
    ∀ l : List Candidate,
      l.Pairwise (fun a b => b.score ≤ a.score) →
        (insertScoreDesc c l).Pairwise (fun a b => b.score ≤ a.score) := by
  intro l
  induction l with
  | nil => intro _; simp [insertScoreDesc]
  | cons y ys ih =>
      intro h
      have h1 := (List.pairwise_cons.mp h).1
      have h2 := (List.pairwise_cons.mp h).2
      by_cases hc : c.score < y.score
      · rw [insertScoreDesc, if_pos hc, List.pairwise_cons]
        refine ⟨fun z hz => ?_, ih h2⟩
        rcases (mem_insertScoreDesc c z ys).mp hz with rfl | hz
        · exact le_of_lt hc
        · exact h1 z hz
      · rw [insertScoreDesc, if_neg hc, List.pairwise_cons]
        refine ⟨fun z hz => ?_, h⟩
        rcases List.mem_cons.mp hz with rfl | hz
        · exact le_of_not_lt hc
        · exact le_trans (h1 z hz) (le_of_not_lt hc)

lemma sortScoreDesc_pairwise :
    ∀ l : List Candidate,
      (sortScoreDesc l).Pairwise (fun a b => b.score ≤ a.score) := by
  intro l
  induction l with
  | nil => simp [sortScoreDesc]
  | cons x xs ih => exact pairwise_insertScoreDesc x (sortScoreDesc xs) ih

lemma sortScoreDesc_of_const_scores :
    ∀ l : List Candidate,
      l.Pairwise (fun a b => a.score = b.score) → sortScoreDesc l = l := by
  intro l
  induction l with
  | nil => intro _; rfl
  | cons x xs ih =>
      intro h
      have h1 := (List.pairwise_cons.mp h).1
      have h2 := (List.pairwise_cons.mp h).2
      rw [sortScoreDesc, ih h2]
      cases xs with
      | nil => rfl
      | cons y ys =>
          have : ¬ x.score < y.score := by
            rw [h1 y (List.mem_cons_self y ys)]
            exact lt_irrefl _
          rw [insertScoreDesc, if_neg this]

/- ============================================================
   Helper lemmas about the bandgap scan
   ============================================================ -/

lemma bgScanAux_onset_le :
    ∀ (pairs : List (ℚ × Bool)) (inGap : Option ℚ) (lastFreq : ℚ),
      (pairs.map Prod.fst).Chain' (· < ·) →
      (∀ s, inGap = some s →
        s ≤ lastFreq ∧
          ∀ f, (pairs.map Prod.fst).head? = some f → lastFreq < f) →
      ∀ bg ∈ bgScanAux pairs inGap lastFreq,
        bg.onset ≤ bg.end_ ∧
          (bg.onset < bg.end_ ∨ bg.onset = (pairs.map Prod.fst).getLastD lastFreq) := by
  intro pairs
  induction pairs with
  | nil =>
      intro inGap lastFreq _ hopen bg hbg
      cases inGap with
      | none => simp [bgScanAux] at hbg
      | some s =>
          simp only [bgScanAux, List.mem_singleton] at hbg
          subst hbg
          refine ⟨(hopen s rfl).1, ?_⟩
          rcases lt_or_eq_of_le (hopen s rfl).1 with h | h
          · exact Or.inl h
          · exact Or.inr h
  | cons p rest ih =>
      intro inGap lastFreq hchain hopen bg hbg
      obtain ⟨f, b⟩ := p
      rw [List.map_cons] at hchain
      have hchain1 : ∀ g, (rest.map Prod.fst).head? = some g → f < g :=
        (List.chain'_cons'.mp hchain).1
      have hchain2 : (rest.map Prod.fst).Chain' (· < ·) :=
        (List.chain'_cons'.mp hchain).2
      have hgoal :
          ((((f, b) :: rest).map Prod.fst).getLastD lastFreq) =
            (rest.map Prod.fst).getLastD f := by
        rw [List.map_cons, List.getLastD_cons]
      rw [hgoal]
      cases inGap with
      | none =>
          cases b with
          | true =>
              rw [show bgScanAux ((f, true) :: rest) none lastFreq =
                    bgScanAux rest (some f) f from rfl] at hbg
              exact ih (some f) f hchain2
                (fun s hs => by cases hs; exact ⟨le_refl f, hchain1⟩) bg hbg
          | false =>
              rw [show bgScanAux ((f, false) :: rest) none lastFreq =
                    bgScanAux rest none f from rfl] at hbg
              exact ih none f hchain2 (fun s hs => by cases hs) bg hbg
      | some s =>
          have hs1 : s ≤ lastFreq := (hopen s rfl).1
          have hs2 : lastFreq < f := (hopen s rfl).2 f (by simp)
          cases b with
          | true =>
              rw [show bgScanAux ((f, true) :: rest) (some s) lastFreq =
                    bgScanAux rest (some s) f from rfl] at hbg
              exact ih (some s) f hchain2
                (fun t ht => by
                  cases ht
                  exact ⟨le_of_lt (lt_of_le_of_lt hs1 hs2), hchain1⟩) bg hbg
          | false =>
              rw [show bgScanAux ((f, false) :: rest) (some s) lastFreq =
                    mkBandgap s f :: bgScanAux rest none f from rfl] at hbg
              rcases List.mem_cons.mp hbg with rfl | hbg
              · exact ⟨le_of_lt (lt_of_le_of_lt hs1 hs2),
                  Or.inl (lt_of_le_of_lt hs1 hs2)⟩
              · exact ih none f hchain2 (fun t ht => by cases ht) bg hbg

/- ============================================================
   Helper lemmas about maxList
   ============================================================ -/

lemma foldl_max_mem : ∀ (xs : List ℚ) (a : ℚ), xs.foldl max a = a ∨ xs.foldl max a ∈ xs := by
  intro xs
  induction xs with
  | nil => intro a; exact Or.inl rfl
  | cons x xs ih =>
      intro a
      rcases ih (max a x) with h | h
      · rcases max_choice a x with hm | hm
        · exact Or.inl (by rw [List.foldl_cons, h, hm])
        · exact Or.inr (by rw [List.foldl_cons, h, hm]; exact List.mem_cons_self x xs)
      · exact Or.inr (List.mem_cons_of_mem x h)

lemma maxList_mem (l : List ℚ) (h : l ≠ []) : maxList l ∈ l := by
  cases l with
  | nil => exact absurd rfl h
  | cons x xs =>
      rw [maxList]
      rcases foldl_max_mem xs x with hm | hm
      · rw [hm]; exact List.mem_cons_self x xs
      · exact List.mem_cons_of_mem x hm

/-- The all-suppressed precondition of the spec (every sample of a nonzero
series has max-normalized strain energy strictly below a threshold at most 1)
holds for no input at all: a sample attaining the maximum normalizes to
exactly 1. -/
theorem allBelowThreshold_unsatisfiable (strainEnergy : List ℚ)
    (thresholdFactor : ℚ) (hne : strainEnergy ≠ [])
    (hmax : maxList strainEnergy ≠ 0) (ht : thresholdFactor ≤ 1) :
    ¬ ∀ e ∈ strainEnergy, e / maxList strainEnergy < thresholdFactor := by
  intro hall
  have hm := hall (maxList strainEnergy) (maxList_mem strainEnergy hne)
  rw [div_self hmax] at hm
  exact absurd (lt_of_lt_of_le hm ht) (lt_irrefl 1)

lemma recordsOf_error_aux (env : String → ConfigBehavior) (key : String)
    (e : String) (h : configError (env key) = some e) :
    recordsOf env key = [(key, SweepRecord.errorRec e)] := by
  rcases hb : (env key).build with e1 | u
  · rw [configError, hb] at h
    simp at h
    simp [recordsOf, hb, h]
  · rcases hs : (env key).submit with e1 | u
    · rw [configError, hb, hs] at h
      simp at h
      simp [recordsOf, hb, hs, h]
    · by_cases hp : pollFinalStatus (env key).statusAt = JobStatus.completed
      · rcases hx : (env key).extract with e1 | r
        · rw [configError, hb, hs, if_pos hp, hx] at h
          simp at h
          simp [recordsOf, hb, hs, hp, hx, h]
        · rw [configError, hb, hs, if_pos hp, hx] at h
          simp at h
      · rw [configError, hb, hs, if_neg hp] at h
        simp at h

/- ============================================================
   Claim theorems
   ============================================================ -/

/-- Claim C10: `checkBuckling` computes all of its outputs exclusively from
the first element of the loadFactors list and never inspects later elements,
so with an unsorted input willBuckle can be False even though a later load
factor is below 1. -/
theorem checkBuckling_head_only :
    (∀ (lf0 : ℚ) (rest rest2 : List ℚ) (appliedLoad : ℚ),
        checkBuckling (lf0 :: rest) appliedLoad =
          checkBuckling (lf0 :: rest2) appliedLoad)
    ∧ (checkBuckling [3 / 2, 4 / 5] 10000).willBuckle = some false
    ∧ (4 : ℚ) / 5 < 1 := by
  refine ⟨fun lf0 rest rest2 appliedLoad => rfl, ?_, by norm_num⟩
  norm_num [checkBuckling]

/-- Claim C4: for maxStress = 0 (present, not None) the code raises
ZeroDivisionError instead of returning a defined sentinel; for every
maxStress > 0 it returns safetyFactor = yieldStress / maxStress and
hasPlasticity = (maxStress > yieldStress). -/
theorem checkPlasticity_zero_raises :
    checkPlasticity (some 0) 276000 = Except.error "float division by zero"
    ∧ ∀ ms : ℚ, 0 < ms →
        checkPlasticity (some ms) 276000 =
          Except.ok
            ⟨some (decide (276000 < ms)), some (276000 / ms),
              some (ms / 1000), some 276⟩ := by
  refine ⟨rfl, fun ms hms => ?_⟩
  norm_num [checkPlasticity, ne_of_gt hms]

/-- Witness for C4: a concrete positive stress input. -/
theorem checkPlasticity_zero_raises_witness :
    checkPlasticity (some 552000) 276000 =
      Except.ok
        ⟨some (decide ((276000 : ℚ) < 552000)), some (276000 / 552000),
          some (552000 / 1000), some 276⟩ :=
  checkPlasticity_zero_raises.2 552000 (by norm_num)

/-- Claim C9: a not-applicable plasticity check (hasPlasticity=None,
safetyFactor=None, exactly what checkPlasticity returns for a missing
maxStress) and a not-applicable buckling check (what checkBuckling returns
for an empty loadFactors list) contribute no penalty, no reward and no
issue, so such a record is scored exactly like one that passed the check
with no margin (safetyFactor 1, respectively loadFactor 1). -/
theorem notApplicable_scored_as_passed (d : ResultData) (k : String) :
    checkPlasticity none 276000 = Except.ok ⟨none, none, none, none⟩
    ∧ checkBuckling [] 10000 = ⟨none, none, none, none, none⟩
    ∧ plasticityTerm (some ⟨none, none, none, none⟩) = (0, [])
    ∧ bucklingTerm (some ⟨none, none, none, none, none⟩) = (0, [])
    ∧ (mkCandidate k
          { d with plasticityCheck := some ⟨none, none, none, none⟩ }).score =
        (mkCandidate k
          { d with
              plasticityCheck :=
                some ⟨some false, some 1, some 276, some 276⟩ }).score
    ∧ (mkCandidate k
          { d with plasticityCheck := some ⟨none, none, none, none⟩ }).issues =
        (mkCandidate k
          { d with
              plasticityCheck :=
                some ⟨some false, some 1, some 276, some 276⟩ }).issues
    ∧ (mkCandidate k
          { d with bucklingCheck := some ⟨none, none, none, none, none⟩ }).score =
        (mkCandidate k
          { d with
              bucklingCheck :=
                some ⟨some false, some 10000, some 10, some 1, some 0⟩ }).score
    ∧ (mkCandidate k
          { d with bucklingCheck := some ⟨none, none, none, none, none⟩ }).issues =
        (mkCandidate k
          { d with
              bucklingCheck :=
                some ⟨some false, some 10000, some 10, some 1, some 0⟩ }).issues := by
  refine ⟨rfl, rfl, rfl, rfl, ?_, ?_, ?_, ?_⟩ <;>
    simp [mkCandidate, plasticityTerm, bucklingTerm]

/-- Counterexample for C2: on the valid input frequencies [1, 2] (strictly
ascending), strain energy [10, 0] (non-negative, nonzero maximum) with the
default threshold 0.1, the suppressed run starts at the last sample, so the
right-censored bandgap has end = onset (width 0) - the claimed strict
inequality end > onset fails. -/
theorem bandgap_zero_width_cex :
    identifyBandgaps [1, 2] [10, 0] (1 / 10) = [⟨2, 2, 0, 2⟩]
    ∧ ¬ ((⟨2, 2, 0, 2⟩ : Bandgap).onset < (⟨2, 2, 0, 2⟩ : Bandgap).end_) := by
  constructor
  · norm_num [identifyBandgaps, maxList, bgScanAux, mkBandgap, List.cons_ne_nil]
  · exact lt_irrefl 2

/-- Claim C2 (amended): for a non-empty strictly ascending frequency list and
a same-length non-negative strain-energy list with nonzero maximum, every
bandgap satisfies onset ≤ end, and end > onset unless the bandgap is the
right-censored one whose suppressed run starts at the last sample (then its
onset equals the last frequency and its width is 0). -/
theorem identifyBandgaps_onset_le_end (freqs se : List ℚ) (t : ℚ)
    (hasc : freqs.Chain' (· < ·)) (hlen : freqs.length = se.length)
    (hne : freqs ≠ []) (hnn : ∀ e ∈ se, 0 ≤ e) (hmax : maxList se ≠ 0) :
    ∀ bg ∈ identifyBandgaps freqs se t,
      bg.onset ≤ bg.end_ ∧
        (bg.onset < bg.end_ ∨ bg.onset = freqs.getLastD 0) := by
  intro bg hbg
  have hsene : se ≠ [] := by
    intro h
    rw [h, List.length_nil] at hlen
    exact hne (List.length_eq_zero.mp hlen)
  simp only [identifyBandgaps] at hbg
  rw [if_neg (by push_neg; exact ⟨hne, hsene⟩), if_neg hmax] at hbg
  have hlenb :
      freqs.length ≤
        (se.map (fun e => decide (e / maxList se < t))).length := by
    rw [List.length_map]
    exact le_of_eq hlen
  have hmapfst :
      ((freqs.zip (se.map (fun e => decide (e / maxList se < t)))).map
          Prod.fst) = freqs :=
    List.map_fst_zip _ _ hlenb
  have := bgScanAux_onset_le
    (freqs.zip (se.map (fun e => decide (e / maxList se < t)))) none 0
    (by rw [hmapfst]; exact hasc) (fun s hs => by cases hs) bg hbg
  rw [hmapfst] at this
  exact this

/-- Witness for C2: the single-suppressed-sample input [1,2,3] / [10,0,10]
produces the interior bandgap from 2 to 3, which the theorem instance
certifies. -/
theorem identifyBandgaps_onset_le_end_witness :
    (⟨2, 3, 1, 5 / 2⟩ : Bandgap).onset ≤ (⟨2, 3, 1, 5 / 2⟩ : Bandgap).end_
    ∧ ((⟨2, 3, 1, 5 / 2⟩ : Bandgap).onset < (⟨2, 3, 1, 5 / 2⟩ : Bandgap).end_
        ∨ (⟨2, 3, 1, 5 / 2⟩ : Bandgap).onset = List.getLastD [1, 2, 3] 0) :=
  identifyBandgaps_onset_le_end [1, 2, 3] [10, 0, 10] (1 / 10)
    (by norm_num [List.chain'_cons]) rfl (by simp) (by norm_num)
    (by norm_num [maxList]) ⟨2, 3, 1, 5 / 2⟩
    (by norm_num [identifyBandgaps, maxList, bgScanAux, mkBandgap,
      List.cons_ne_nil])

/-- Claim C5 (amended): the in-memory results store is appended to after each
configuration, but the results JSON file is written exactly once, after the
whole sweep; the single flush contains the final store. -/
theorem runSweep_single_flush (env : String → ConfigBehavior)
    (keys : List String) :
    (runSweep env keys).flushes = [(runSweep env keys).store]
    ∧ (runSweep env keys).store = (keys.map (recordsOf env)).flatten :=
  ⟨runSweep_flushes env keys, runSweep_store env keys⟩

/-- Counterexample for C5: a two-configuration sweep in which both jobs
complete performs exactly one durable flush, and that flush already contains
both records - there is no flush after the first configuration. -/
theorem flush_once_cex :
    (runSweep (fun _ => completingJob sampleRaw) ["a", "b"]).flushes =
      [[("a", SweepRecord.results sampleRaw),
        ("b", SweepRecord.results sampleRaw)]] := by rfl

/-- The environment used for the C3 refutation and witness: configuration a
is permanently Running, every other configuration completes normally. -/
def stuckThenOkEnv : String → ConfigBehavior := fun k =>
  if k = "a" then neverTerminalJob sampleRaw else completingJob sampleRaw

/-- Counterexample for C3: with configuration a permanently Running and
configuration b completing, the sweep stores no record at all for a (in
particular none with a TimedOut status, which the code never produces),
while b is still processed and its cleanup runs. -/
theorem timeout_not_recorded_cex :
    (runSweep stuckThenOkEnv ["a", "b"]).store =
      [("b", SweepRecord.results sampleRaw)]
    ∧ (runSweep stuckThenOkEnv ["a", "b"]).cleanups = ["a", "b"] :=
  ⟨rfl, rfl⟩

/-- Claim C3 (amended): a configuration whose job status never becomes
terminal within the 300-second / 2-second poll budget contributes nothing to
the results store (no record of any status); the sweep simply stops waiting,
runs the cleanup, and proceeds to the remaining configurations, whose
results are exactly those of the sweep without the stuck configuration. -/
theorem runSweep_timeout_skips_config (env : String → ConfigBehavior)
    (pre post : List String) (k : String)
    (hb : (env k).build = Except.ok ())
    (hs : (env k).submit = Except.ok ())
    (hrun : ∀ i, isTerminal ((env k).statusAt i) = false) :
    recordsOf env k = []
    ∧ (runSweep env (pre ++ k :: post)).store =
        (runSweep env (pre ++ post)).store
    ∧ (runSweep env (pre ++ k :: post)).cleanups = pre ++ k :: post := by
  have hnc : ¬ pollFinalStatus (env k).statusAt = JobStatus.completed := by
    intro h
    have h2 := hrun (pollExitIdx (env k).statusAt 0
      (maxWaitSeconds / pollIntervalSeconds))
    rw [pollFinalStatus] at h
    rw [h] at h2
    exact absurd h2 (by simp [isTerminal])
  have hrec : recordsOf env k = [] := by
    simp [recordsOf, hb, hs, hnc]
  refine ⟨hrec, ?_, runSweep_cleanups env _⟩
  rw [runSweep_store, runSweep_store, List.map_append, List.map_cons, hrec,
    List.map_append, List.flatten_append, List.flatten_cons,
    List.flatten_append]
  simp

/-- Witness for C3: the stuck configuration a of `stuckThenOkEnv`
contributes no record, the sweep over [a, b] stores exactly what the sweep
over [b] stores, and both configurations are cleaned up. -/
theorem runSweep_timeout_skips_config_witness :
    recordsOf stuckThenOkEnv "a" = []
    ∧ (runSweep stuckThenOkEnv ["a", "b"]).store =
        (runSweep stuckThenOkEnv ["b"]).store
    ∧ (runSweep stuckThenOkEnv ["a", "b"]).cleanups = ["a", "b"] :=
  runSweep_timeout_skips_config stuckThenOkEnv [] ["b"] "a" rfl rfl
    (fun _ => rfl)

/-- Claim C7: every configuration is cleaned up regardless of outcome, the
store is the concatenation of independent per-configuration contributions
(so one configuration cannot prevent the rest from running), and any
exception raised in the build/submit/extract phases of a configuration is
caught and recorded as an error entry under that configuration's key. -/
theorem runSweep_error_isolation (env : String → ConfigBehavior)
    (keys : List String) :
    (runSweep env keys).cleanups = keys
    ∧ (runSweep env keys).store = (keys.map (recordsOf env)).flatten
    ∧ (∀ k e, configError (env k) = some e →
        recordsOf env k = [(k, SweepRecord.errorRec e)])
    ∧ ∀ k e, k ∈ keys → configError (env k) = some e →
        (k, SweepRecord.errorRec e) ∈ (runSweep env keys).store := by
  refine ⟨runSweep_cleanups env keys, runSweep_store env keys,
    fun k e h => recordsOf_error_aux env k e h, fun k e hk he => ?_⟩
  rw [runSweep_store]
  have hmem : (k, SweepRecord.errorRec e) ∈ recordsOf env k := by
    rw [recordsOf_error_aux env k e he]
    exact List.mem_singleton.mpr rfl
  exact List.mem_flatten.mpr
    ⟨recordsOf env k, List.mem_map_of_mem (recordsOf env) hk, hmem⟩

/-- The environment used for the C7 witness: configuration a raises during
model build, the others complete normally. -/
def failingBuildEnv : String → ConfigBehavior := fun k =>
  if k = "a" then
    ⟨Except.error "boom", Except.ok (), fun _ => JobStatus.completed,
      Except.ok sampleRaw, true⟩
  else completingJob sampleRaw

/-- Witness for C7: with configuration a raising "boom" at build time, all
three configurations are cleaned up and the error entry for a is in the
store. -/
theorem runSweep_error_isolation_witness :
    (runSweep failingBuildEnv ["a", "b", "c"]).cleanups = ["a", "b", "c"]
    ∧ ("a", SweepRecord.errorRec "boom") ∈
        (runSweep failingBuildEnv ["a", "b", "c"]).store :=
  ⟨(runSweep_error_isolation failingBuildEnv ["a", "b", "c"]).1,
    (runSweep_error_isolation failingBuildEnv ["a", "b", "c"]).2.2.2 "a" "boom"
      (by simp) rfl⟩

/-- A configuration record used by the C6 refutation and witness: two
configurations with identical data receive identical scores. -/
def tieData : ResultData :=
  ⟨some 1, some 2, none, none, [⟨100, 200, 100, 150⟩]⟩

/-- Counterexample for C6: feeding the same two equal-score records in the
two possible iteration orders yields two different output orderings, so ties
are not broken by configuration key and the ordering is not independent of
the iteration order of the input mapping. -/
theorem ranking_order_dependent_cex :
    (findOptimalConfiguration [("a", tieData), ("b", tieData)]).map
        (fun c => c.config) = ["a", "b"]
    ∧ (findOptimalConfiguration [("b", tieData), ("a", tieData)]).map
        (fun c => c.config) = ["b", "a"] := by
  constructor <;>
    norm_num [findOptimalConfiguration, candidatesOf, sortScoreDesc,
      insertScoreDesc, mkCandidate, plasticityTerm, bucklingTerm, bandgapTerm,
      tieData]

/-- Claim C6 (amended): `findOptimalConfiguration` returns a permutation of
the per-configuration candidates sorted by score descending; equal-score
ties keep the input iteration order (Python stable sort) instead of being
broken by configuration key, so an all-tied input comes back exactly in
input order. -/
theorem findOptimalConfiguration_sorted (results : List (String × ResultData)) :
    (findOptimalConfiguration results).Pairwise (fun a b => b.score ≤ a.score)
    ∧ (findOptimalConfiguration results).Perm (candidatesOf results)
    ∧ ((candidatesOf results).Pairwise (fun a b => a.score = b.score) →
        findOptimalConfiguration results = candidatesOf results) :=
  ⟨sortScoreDesc_pairwise (candidatesOf results),
    sortScoreDesc_perm (candidatesOf results),
    fun h => sortScoreDesc_of_const_scores (candidatesOf results) h⟩

/-- Witness for C6: the tied two-record input comes back in input order,
certified by the theorem instance. -/
theorem findOptimalConfiguration_sorted_witness :
    findOptimalConfiguration [("a", tieData), ("b", tieData)] =
      candidatesOf [("a", tieData), ("b", tieData)] :=
  (findOptimalConfiguration_sorted [("a", tieData), ("b", tieData)]).2.2
    (by norm_num [candidatesOf, List.pairwise_cons, mkCandidate,
      plasticityTerm, bucklingTerm, bandgapTerm, tieData])

/-- A no-issues record whose only bandgap has a high onset: score
-900/10 + 100/5 = -70, issues empty. -/
def cleanHighOnset : ResultData :=
  ⟨some (1 / 10), some 0, none, none, [⟨900, 1000, 100, 950⟩]⟩

/-- A plastic record with a large buckling margin and a wide zero-onset
bandgap: score -100 + (10-1)*50 + 500/5 = 450 despite the plasticity
penalty. -/
def plasticRewarded : ResultData :=
  ⟨some (1 / 5), some 15,
    some ⟨some true, some (1 / 2), some 552, some 276⟩,
    some ⟨some false, some 100000, some 100, some 10, some 900⟩,
    [⟨0, 500, 500, 250⟩]⟩

/-- Counterexample for C1: the plastic configuration b (hasPlasticity true,
issue recorded) is placed above the clean configuration a (empty issues) in
the final score-descending ordering, because its buckling and bandgap
rewards more than compensate the fixed -100 penalty. -/
theorem plasticity_outranks_clean_cex :
    (findOptimalConfiguration
        [("a", cleanHighOnset), ("b", plasticRewarded)]).map
        (fun c => (c.config, c.issues, c.hasPlasticity)) =
      [("b", ["Plasticity detected"], some true), ("a", [], some false)] := by
  norm_num [findOptimalConfiguration, candidatesOf, sortScoreDesc,
    insertScoreDesc, mkCandidate, plasticityTerm, bucklingTerm, bandgapTerm,
    cleanHighOnset, plasticRewarded]

/-- The default used to read candidates out of the output list. -/
def dummyCandidate : Candidate :=
  ⟨"", none, none, 0, [], none, none, none, none, none, none⟩

lemma plasticityTerm_nonneg_of_no_issue (o : Option PlasticityResult)
    (h : (plasticityTerm o).2 = []) : 0 ≤ (plasticityTerm o).1 := by
  rcases o with _ | pc
  · simp [plasticityTerm]
  · by_cases h2 : pc.hasPlasticity = some true
    · simp [plasticityTerm, h2] at h
    · rcases hsf : pc.safetyFactor with _ | sf
      · simp [plasticityTerm, h2, hsf]
      · by_cases h3 : 1 < sf
        · simp only [plasticityTerm, if_neg h2, hsf, if_pos h3]
          linarith
        · simp [plasticityTerm, h2, hsf, h3]

/-- Claim C1 (amended): a hasPlasticity=True configuration always scores
strictly below a no-issues configuration that has the same buckling check
and the same bandgap list, and is therefore placed strictly after it in the
final score-descending ordering; dominance over arbitrary no-issues
configurations fails (see the counterexample) because the buckling and
bandgap reward terms are unbounded. -/
theorem plastic_below_clean_same_terms (results : List (String × ResultData))
    (kP kC : String) (dP dC : ResultData) (i j : ℕ)
    (hplastic : ∃ pc, dP.plasticityCheck = some pc ∧
      pc.hasPlasticity = some true)
    (hbuck : dP.bucklingCheck = dC.bucklingCheck)
    (hband : dP.bandgaps = dC.bandgaps)
    (hclean : (mkCandidate kC dC).issues = [])
    (hi : i < (findOptimalConfiguration results).length)
    (hj : j < (findOptimalConfiguration results).length)
    (hgi : (findOptimalConfiguration results).getD i dummyCandidate =
      mkCandidate kP dP)
    (hgj : (findOptimalConfiguration results).getD j dummyCandidate =
      mkCandidate kC dC) :
    j < i := by
  obtain ⟨pc, hpc, hpl⟩ := hplastic
  have hP : plasticityTerm dP.plasticityCheck =
      (-100, ["Plasticity detected"]) := by
    rw [hpc]
    simp [plasticityTerm, hpl]
  have hissue := hclean
  simp only [mkCandidate, List.append_eq_nil] at hissue
  have hp2 : (plasticityTerm dC.plasticityCheck).2 = [] := hissue.1.1
  have eP : (mkCandidate kP dP).score =
      -100 + ((bucklingTerm dC.bucklingCheck).1 +
        (bandgapTerm dC.bandgaps).1) := by
    simp only [mkCandidate, hP, hbuck, hband]
    ring
  have eC : (mkCandidate kC dC).score =
      (plasticityTerm dC.plasticityCheck).1 +
        ((bucklingTerm dC.bucklingCheck).1 + (bandgapTerm dC.bandgaps).1) := by
    simp only [mkCandidate]
    ring
  have hscore : (mkCandidate kP dP).score < (mkCandidate kC dC).score := by
    rw [eP, eC]
    have := plasticityTerm_nonneg_of_no_issue dC.plasticityCheck hp2
    linarith
  have hpair : (findOptimalConfiguration results).Pairwise
      (fun a b => b.score ≤ a.score) := sortScoreDesc_pairwise _
  rcases Nat.lt_trichotomy i j with hij | hij | hij
  · exfalso
    have hle := (List.pairwise_iff_getElem.mp hpair) i j hi hj hij
    rw [← List.getD_eq_getElem (findOptimalConfiguration results)
        dummyCandidate hi,
      ← List.getD_eq_getElem (findOptimalConfiguration results)
        dummyCandidate hj, hgi, hgj] at hle
    exact absurd hscore (not_lt_of_le hle)
  · exfalso
    rw [hij, hgj] at hgi
    exact absurd (congrArg Candidate.score hgi).symm (ne_of_lt hscore)
  · exact hij

/-- A no-issues record sharing its buckling check and bandgap list with
`plasticTwin`: score 0 + 50 + 10 = 60, issues empty. -/
def cleanTwin : ResultData :=
  ⟨some (1 / 10), some 0, none,
    some ⟨some false, some 20000, some 20, some 2, some 100⟩,
    [⟨100, 200, 100, 150⟩]⟩

/-- The plastic record with the same buckling check and bandgap list as
`cleanTwin`: score -100 + 50 + 10 = -40. -/
def plasticTwin : ResultData :=
  ⟨some (1 / 5), some 15,
    some ⟨some true, some (1 / 2), some 552, some 276⟩,
    some ⟨some false, some 20000, some 20, some 2, some 100⟩,
    [⟨100, 200, 100, 150⟩]⟩

/-- Witness for the amended C1: on the concrete two-record input the clean
twin lands at index 0 and the plastic twin at index 1, and the theorem
instance certifies 0 < 1. -/
theorem plastic_below_clean_same_terms_witness :
    (findOptimalConfiguration
        [("c", cleanTwin), ("p", plasticTwin)]).getD 1 dummyCandidate =
      mkCandidate "p" plasticTwin
    ∧ (findOptimalConfiguration
        [("c", cleanTwin), ("p", plasticTwin)]).getD 0 dummyCandidate =
      mkCandidate "c" cleanTwin
    ∧ (mkCandidate "c" cleanTwin).issues = []
    ∧ (0 : ℕ) < 1 := by
  have hgi : (findOptimalConfiguration
      [("c", cleanTwin), ("p", plasticTwin)]).getD 1 dummyCandidate =
      mkCandidate "p" plasticTwin := by
    norm_num [findOptimalConfiguration, candidatesOf, sortScoreDesc,
      insertScoreDesc, mkCandidate, plasticityTerm, bucklingTerm, bandgapTerm,
      cleanTwin, plasticTwin, List.getD]
  have hgj : (findOptimalConfiguration
      [("c", cleanTwin), ("p", plasticTwin)]).getD 0 dummyCandidate =
      mkCandidate "c" cleanTwin := by
    norm_num [findOptimalConfiguration, candidatesOf, sortScoreDesc,
      insertScoreDesc, mkCandidate, plasticityTerm, bucklingTerm, bandgapTerm,
      cleanTwin, plasticTwin, List.getD]
  have hcl : (mkCandidate "c" cleanTwin).issues = [] := by
    norm_num [mkCandidate, plasticityTerm, bucklingTerm, bandgapTerm, cleanTwin]
  refine ⟨hgi, hgj, hcl, ?_⟩
  exact plastic_below_clean_same_terms
    [("c", cleanTwin), ("p", plasticTwin)] "p" "c" plasticTwin cleanTwin 1 0
    ⟨⟨some true, some (1 / 2), some 552, some 276⟩, rfl, rfl⟩ rfl rfl hcl
    (by norm_num [findOptimalConfiguration, candidatesOf, sortScoreDesc,
      insertScoreDesc, mkCandidate, plasticityTerm, bucklingTerm, bandgapTerm,
      cleanTwin, plasticTwin])
    (by norm_num [findOptimalConfiguration, candidatesOf, sortScoreDesc,
      insertScoreDesc, mkCandidate, plasticityTerm, bucklingTerm, bandgapTerm,
      cleanTwin, plasticTwin])
    hgi hgj
